import Mathlib

/-!
# Verification of fidget's symbolic stack-frame tracking engine

Shallow embedding of `fidget/sym_tracking.py`: the taint-carrying expression
DAG (`SmartExpression` / `ConstExpression` / `CustomExpression`), the
per-block abstract machine state (`BlockState`, `TempStore`), the statement
interpreter of `StructureAnalysis.analyze_stack`, the per-function driver
loop of `StructureAnalysis.__init__`, and the eligible-function filter
`StructureAnalysis.get_real_functions`.

External collaborators (the angr loader, claripy's symbolic values, the
simuvex operation-semantics table, `binary_data.BinaryData` resolution and
the `stack_magic.Struct` frame object) are modelled as parameters or, where
the repository file is not available under `src/`, modelled from the spec
(marked in the corresponding doc comments).

Machine values (claripy bitvectors) are modelled as `Nat` together with an
explicit bit width; extraction and concatenation use `%`/`>>>`/`*` with
explicit powers of two.
-/

/-- Substring test: Python's `pat in s` used at
`sym_tracking.py:428` (`'stack' in self.taint_region`).  Implemented over
the character lists. -/
def listIsPrefixChars : List Char → List Char → Bool
  | [], _ => true
  | _ :: _, [] => false
  | a :: ps, b :: ls => a == b && listIsPrefixChars ps ls

/-- `listHasSub p l` is true iff `p` occurs contiguously inside `l`. -/
def listHasSub (p : List Char) : List Char → Bool
  | [] => p.isEmpty
  | c :: ls => listIsPrefixChars p (c :: ls) || listHasSub p ls

/-- Python `pat in s` for strings. -/
def strContainsSub (s pat : String) : Bool :=
  listHasSub pat.data s.data

/-- Python `s.startswith(pre)` for strings (kernel-reducible). -/
def strStartsWith (s pre : String) : Bool :=
  listIsPrefixChars pre.data s.data

/-- A VEX type (`Ity_I8`/`Ity_I32`/`Ity_F64`/...): float kind flag plus bit
width (`vexutils.extract_int`). -/
structure VexTy where
  isFloat : Bool
  width : Nat
deriving DecidableEq, Repr

/-- Integer VEX type `Ity_I<w>`. -/
def intTy (w : Nat) : VexTy := ⟨false, w⟩

/-- Float VEX type `Ity_F<w>`. -/
def fltTy (w : Nat) : VexTy := ⟨true, w⟩

/-- One element of an operand path (`['statements', stmt_idx, 'data', ...]`):
paths mix strings and integer indices. -/
inductive PathElem where
  | s (v : String)
  | n (v : Nat)
deriving DecidableEq, Repr

/-- Kind of a tag-log entry (`'ALLOC'` / `'ACCESS'` strings in the source). -/
inductive TagKind where
  | alloc
  | access
deriving DecidableEq, Repr

/-- `AccessType.READ` (sym_tracking.py:331). -/
def AccessType.READ : Nat := 1
/-- `AccessType.WRITE` (sym_tracking.py:332). -/
def AccessType.WRITE : Nat := 2
/-- `AccessType.POINTER` (sym_tracking.py:333). -/
def AccessType.POINTER : Nat := 4
/-- `AccessType.UNINITREAD` (sym_tracking.py:334). -/
def AccessType.UNINITREAD : Nat := 8

/-- The exceptions that can escape the embedded code: `FidgetAnalysisFailure`,
`FidgetUnsupportedError`, `FidgetError`, Python `ValueError`, list/dict index
errors, and the two simuvex conditions caught around the operation table
(`SimOperationError`, `KeyError`). -/
inductive Err where
  | analysisFailure
  | unsupported (msg : String)
  | fidgetError (msg : String)
  | valueError (msg : String)
  | indexError
  | simOperationError
  | keyError
  | noneError
deriving DecidableEq, Repr

/-- Scalar payload of an expression node: size, VEX type, literal-replay
value (`cleanval`, as a `Nat`), the taint record
(`taints = defaultdict(bool)` with keys `'pointer'`, `'concrete'`, `'it'`;
`pointer` is either `False` or a region-name string, modelled as
`Option String`), the literal-root flag `rootval`, the instruction address
and operand path, and a class marker distinguishing `ConstExpression`
instances (which have their own `truncate`) from
`SmartExpression`/`CustomExpression` nodes. -/
structure NodeInfo where
  size : Nat
  ty : VexTy
  cleanval : Nat
  pointer : Option String
  concrete : Bool
  it : Bool
  rootval : Bool
  addr : Option Nat
  path : List PathElem
  isConstE : Bool
deriving DecidableEq, Repr

/-- An expression DAG node: scalar info plus dependency list (`self.deps`). -/
inductive SExpr where
  | mk (info : NodeInfo) (deps : List SExpr)

/-- Scalar fields of a node. -/
def SExpr.info : SExpr → NodeInfo
  | .mk i _ => i

/-- Dependencies of a node. -/
def SExpr.deps : SExpr → List SExpr
  | .mk _ d => d

theorem SExpr.info_mk (i : NodeInfo) (d : List SExpr) : (SExpr.mk i d).info = i := rfl

theorem SExpr.deps_mk (i : NodeInfo) (d : List SExpr) : (SExpr.mk i d).deps = d := rfl

/-- `ConstExpression(val, ty, concrete)` (sym_tracking.py:657): size comes
from the bitvector, `cleanval = dirtyval = val`, no deps, `rootval` false,
`addr = None`, `path = []`; taints default except `concrete`. -/
def constExpr (val : Nat) (size : Nat) (ty : VexTy) (concrete : Bool) : SExpr :=
  .mk { size := size, ty := ty, cleanval := val, pointer := none,
        concrete := concrete, it := false, rootval := false,
        addr := none, path := [], isConstE := true } []

/-- `ConstExpression.default(ty)` (sym_tracking.py:685): a zero default value
of the given type, not concrete. -/
def constDefault (ty : VexTy) : SExpr :=
  constExpr 0 ty.width ty false

/-- Low `w` bits of a value: claripy `v[w-1:0]`. -/
def extractBits (v : Nat) (hi lo : Nat) : Nat :=
  (v >>> lo) % 2 ^ (hi - lo + 1)

/-- claripy `Concat(hiVal, loVal)` where `loVal` has width `loWidth`. -/
def concatVals (hiVal loVal loWidth : Nat) : Nat :=
  hiVal * 2 ^ loWidth + loVal

/-- Signed interpretation of a `w`-bit value (`cleanval.model.signed`). -/
def toSigned (w v : Nat) : Int :=
  if v < 2 ^ (w - 1) then (v : Int) else (v : Int) - 2 ^ w

/-- `SmartExpression.truncate` (sym_tracking.py:625) and
`ConstExpression.truncate` (sym_tracking.py:673), dispatched by the class
marker.  Both return `self` when the requested type is the current type,
raise `ValueError` on float coercion, and return `self` (with an error log)
on attempted widening; they differ in the node they build: the
`SmartExpression` version wraps `self` as a dependency of a fresh
`CustomExpression`, the `ConstExpression` version builds a plain constant. -/
def SExpr.truncate (e : SExpr) (ty : VexTy) : Except Err SExpr :=
  if ty = e.info.ty then
    .ok e
  else if e.info.ty.isFloat then
    .error (.valueError "Cannot coerce floating point values")
  else
    let sizeBits := ty.width
    if sizeBits > e.info.size then
      .ok e
    else if e.info.isConstE then
      .ok (constExpr (extractBits e.info.cleanval (sizeBits - 1) 0) sizeBits ty
            e.info.concrete)
    else
      .ok (.mk { size := sizeBits, ty := ty,
                 cleanval := extractBits e.info.cleanval (sizeBits - 1) 0,
                 pointer := none, concrete := e.info.concrete, it := false,
                 rootval := false, addr := e.info.addr, path := e.info.path,
                 isConstE := false } [e])

/-- `SmartExpression.overwrite` (sym_tracking.py:600): writing `self` (the
new, possibly narrower value) over `other` (the old register contents).
If the new value is at least as wide it is returned unchanged; otherwise a
fresh node concatenates the old value's high bits with the new value's low
bits, taking the old value's pointer taint and the conjunction of both
concreteness flags. -/
def SExpr.overwrite (self other : SExpr) : SExpr :=
  if self.info.size > other.info.size then
    self
  else if self.info.size = other.info.size then
    self
  else
    let smaller := self
    let larger := other
    .mk { size := larger.info.size, ty := larger.info.ty,
          cleanval := concatVals
            (extractBits larger.info.cleanval (larger.info.size - 1) smaller.info.size)
            smaller.info.cleanval smaller.info.size,
          pointer := larger.info.pointer,
          concrete := larger.info.concrete && smaller.info.concrete,
          it := false, rootval := false,
          addr := smaller.info.addr, path := smaller.info.path,
          isConstE := false } [smaller, larger]

/-- Region-taint propagation for `Iop_Add*`/`Iop_And*`/`Iop_Or*`/`Iop_Xor*`
(sym_tracking.py:515-519):
`((t1 if t1 == t2 else False) if t1 and t2 else t1) if t1 or t2 else False`. -/
def addClassTaint (t1 t2 : Option String) : Option String :=
  if t1.isSome || t2.isSome then
    if t1.isSome && t2.isSome then
      if t1 = t2 then t1 else none
    else t1
  else none

/-- Region-taint propagation for `Iop_Sub*` (sym_tracking.py:520-523):
`t1 if t1 and not t2 else False`. -/
def subClassTaint (t1 t2 : Option String) : Option String :=
  if t1.isSome && !t2.isSome then t1 else none

/-- Association-list lookup with Python-dict semantics (first matching key;
keys are unique in states built by the engine, as in a Python dict). -/
def alLookup {α β : Type} [DecidableEq α] (l : List (α × β)) (k : α) : Option β :=
  (l.find? (fun p => decide (p.1 = k))).map (fun p => p.2)

/-- Association-list insert with Python-dict semantics: replace the value in
place when the key is present, append otherwise. -/
def alInsert {α β : Type} [DecidableEq α] (l : List (α × β)) (k : α) (v : β) :
    List (α × β) :=
  if l.any (fun p => decide (p.1 = k)) then
    l.map (fun p => if p.1 = k then (k, v) else p)
  else l ++ [(k, v)]

/-- The architecture descriptor consumed from angr (`project.arch`). -/
structure Arch where
  name : String
  bits : Nat
  sp_offset : Nat
  bp_offset : Nat
  ip_offset : Nat
  call_pushes_ret : Bool
  memory_endness : String
  itstateOffset : Nat

/-- One element of a patch-location set: either a resolved
`BinaryData` descriptor (instruction address and operand path) or, when
`BinaryData` raises `ValueNotFoundError`, the raw literal as an immovable
constant (sym_tracking.py:581-592). -/
inductive PatchEntry where
  | resolved (insnAddr : Option Nat) (value : Nat) (path : List PathElem)
  | immovable (value : Nat)
deriving DecidableEq, Repr

/-- `BinaryDataConglomerate(self.addr, self.cleanval.model.signed, dirtyval,
flags)` with the patch entries added by `make_bindata`
(sym_tracking.py:564-570); the symbolic `dirtyval` mirror is carried by the
resolved patch entries' address/path keys. -/
structure BinData where
  insnAddr : Option Nat
  signedValue : Int
  flags : Nat
  patches : List PatchEntry
deriving DecidableEq, Repr

/-- External collaborators reachable from `self.project`:
the architecture descriptor; `loaderConst a n` models the angr loader read
of `n` bytes of initialized binary data at address `a`
(`project.loader.memory`, sym_tracking.py:403-410); `opSem` models the
simuvex `operations[op].calculate` table (raising `SimOperationError` for
inapplicable shapes and `KeyError` for an unknown opcode);
`binDataResolves` models whether `binary_data.BinaryData` (a repository
module not under `src/`; modelled from the spec's patch-extraction
description) resolves an embedded literal to instruction bytes. -/
structure Project where
  arch : Arch
  loaderConst : Nat → Nat → Option Nat
  opSem : String → List Nat → Except Err Nat
  binDataResolves : Option Nat → Nat → List PathElem → Bool

mutual

/-- `SmartExpression.make_bindata_internal` (sym_tracking.py:572-598): walk
the DAG to every literal-root leaf in left-to-right order; a leaf yields a
resolved descriptor when `BinaryData` succeeds and the raw value otherwise.
(`ConstExpression.make_bindata_internal` returns `[]`; constant nodes here
have `rootval = false` and no deps, giving the same result.) -/
def makeBindataInternal (proj : Project) : SExpr → List PatchEntry
  | .mk i deps =>
    if i.rootval then
      if proj.binDataResolves i.addr i.cleanval (i.path ++ [.s "con", .s "value"]) then
        [.resolved i.addr i.cleanval (i.path ++ [.s "con", .s "value"])]
      else
        [.immovable i.cleanval]
    else
      makeBindataList proj deps

/-- Left-to-right concatenation of the deps' patch entries. -/
def makeBindataList (proj : Project) : List SExpr → List PatchEntry
  | [] => []
  | e :: rest => makeBindataInternal proj e ++ makeBindataList proj rest

end

/-- `SmartExpression.make_bindata(flags)` (sym_tracking.py:564-570). -/
def makeBindata (proj : Project) (e : SExpr) (flags : Nat) : BinData :=
  { insnAddr := e.info.addr,
    signedValue := toSigned e.info.size e.info.cleanval,
    flags := flags,
    patches := makeBindataInternal proj e }

/-- `TempStore` (sym_tracking.py:302): the per-instruction scratch map of
temporaries, with the instruction's type environment. -/
structure TempStore where
  tyenv : List VexTy
  storage : List (Nat × SExpr)

/-- `TempStore.read` (sym_tracking.py:307): fatal usage error on a
never-written temporary. -/
def TempStore.read (ts : TempStore) (tmp : Nat) : Except Err SExpr :=
  match alLookup ts.storage tmp with
  | none => .error (.valueError "Temp not assigned to yet")
  | some v => .ok v

/-- `TempStore.size_of` (sym_tracking.py:313). -/
def TempStore.sizeOfTmp (ts : TempStore) (tmp : Nat) : Except Err Nat :=
  match ts.tyenv.get? tmp with
  | some ty => .ok ty.width
  | none => .error (.valueError "Temp not valid in curent env")

/-- `TempStore.write` (sym_tracking.py:318): fatal type error on a mistyped
write; `vexutils.ZExtTo` pads `cleanval`/`dirtyval` up to the declared
width, which leaves the numeric value unchanged in this model. -/
def TempStore.write (ts : TempStore) (tmp : Nat) (value : SExpr) :
    Except Err TempStore :=
  match ts.tyenv.get? tmp with
  | none => .error .indexError
  | some ty =>
    if value.info.ty ≠ ty then .error (.valueError "Invalid type!")
    else do
      let _ ← ts.sizeOfTmp tmp
      .ok { ts with storage := alInsert ts.storage tmp value }

/-- `TempStore.default` (sym_tracking.py:326): materialize an untainted
architecture-typed filler for unmodeled producers. -/
def TempStore.defaultTmp (ts : TempStore) (tmp : Nat) : Except Err TempStore :=
  match ts.tyenv.get? tmp with
  | none => .error .indexError
  | some ty => ts.write tmp (constDefault ty)

/-- The ARM `itstate` pre-seeded register: a defaulted `Ity_I32` constant
whose `it` taint is set (sym_tracking.py:353-355). -/
def itstateDefault : SExpr :=
  .mk { size := 32, ty := intTy 32, cleanval := 0, pointer := none,
        concrete := false, it := true, rootval := false, addr := none,
        path := [], isConstE := true } []

/-- The architecture-specific register pre-seeding of
`BlockState.__init__` (sym_tracking.py:347-355). -/
def seedRegs (a : Arch) : List (Nat × SExpr) :=
  if a.name = "AMD64" then
    [(144, constDefault (intTy 64)), (156, constDefault (intTy 64))]
  else if a.name = "X86" then
    [(216, constDefault (intTy 32)), (884, constDefault (intTy 32))]
  else if strStartsWith a.name "ARM" then
    [(a.itstateOffset, itstateDefault)]
  else []

/-- `BlockState` (sym_tracking.py:336): per-block abstract machine state. -/
structure BlockState where
  project : Project
  addr : Nat
  taint_region : String
  tempstore : Option TempStore
  regs : List (Nat × SExpr)
  mem_regions : List (String × List (Nat × SExpr))
  tags : List (TagKind × BinData)

/-- `BlockState.__init__` (sym_tracking.py:337-355). -/
def BlockState.init (proj : Project) (addr : Nat) (taint_region : String) :
    BlockState :=
  { project := proj, addr := addr, taint_region := taint_region,
    tempstore := none, regs := seedRegs proj.arch, mem_regions := [],
    tags := [] }

/-- `BlockState.copy` (sym_tracking.py:357-364): a fresh state at the new
address (re-running the seeding constructor), keeping only the source
registers whose value carries a truthy pointer taint. -/
def BlockState.copy (bs : BlockState) (newaddr : Nat) : BlockState :=
  let out := BlockState.init bs.project newaddr bs.taint_region
  let keptRegs := bs.regs.foldl
    (fun acc p => if p.2.info.pointer.isSome then alInsert acc p.1 p.2 else acc)
    out.regs
  { out with regs := keptRegs }

/-- `BlockState.load_tempstore` (sym_tracking.py:370). -/
def BlockState.loadTempstore (bs : BlockState) (ts : TempStore) : BlockState :=
  { bs with tempstore := ts }

/-- `BlockState.get_reg` (sym_tracking.py:373-390): fetch-or-default; cold
registers are materialized at the native width (or the requested
float/oversized type) and never error; a kind mismatch against a stored
float discards the register. -/
def BlockState.getReg (bs : BlockState) (regnum : Nat) (ty : VexTy) :
    Except Err (SExpr × BlockState) :=
  match alLookup bs.regs regnum with
  | none =>
    let d := if ty.isFloat || ty.width > bs.project.arch.bits
             then constDefault ty
             else constDefault (intTy bs.project.arch.bits)
    do
      let t ← d.truncate ty
      .ok (t, { bs with regs := alInsert bs.regs regnum d })
  | some v =>
    if v.info.ty.isFloat then
      if v.info.ty ≠ ty then
        let d := constDefault ty
        .ok (d, { bs with regs := alInsert bs.regs regnum d })
      else .ok (v, bs)
    else do
      let t ← v.truncate ty
      .ok (t, bs)

/-- `BlockState.get_tmp` (sym_tracking.py:393); the tempstore is `None`
outside an instruction lift. -/
def BlockState.getTmp (bs : BlockState) (tmp : Nat) : Except Err SExpr :=
  match bs.tempstore with
  | none => .error .noneError
  | some ts => ts.read tmp

/-- `BlockState.get_mem` (sym_tracking.py:396-411): exact (region, offset)
lookup for in-region addresses with type-mismatch fallback to a default;
an untainted address backed by initialized binary data folds to a true
constant; everything else defaults. -/
def BlockState.getMem (bs : BlockState) (addr : SExpr) (ty : VexTy) : SExpr :=
  match addr.info.pointer with
  | some region =>
    match alLookup ((alLookup bs.mem_regions region).getD []) addr.info.cleanval with
    | some val => if val.info.ty = ty then val else constDefault ty
    | none => constDefault ty
  | none =>
    match bs.project.loaderConst addr.info.cleanval (ty.width / 8) with
    | some v =>
      if ty.isFloat then constDefault ty
      else constExpr v (ty.width / 8 * 8) ty true
    | none => constDefault ty

/-- `BlockState.access` (sym_tracking.py:413-416): append an ACCESS tag iff
the address is in-scope (its region taint equals the current function's
region). -/
def BlockState.access (bs : BlockState) (addrExpression : SExpr)
    (accessType : Nat) : BlockState :=
  if addrExpression.info.pointer ≠ some bs.taint_region then bs
  else { bs with
    tags := bs.tags ++ [(.access, makeBindata bs.project addrExpression accessType)] }

/-- `SmartExpression.copy_to_self` (sym_tracking.py:547-555): copies
`cleanval`, `dirtyval`, `deps`, `addr`, `_bindata`, `taints`, `rootval` and
`path` — but not `size`/`type` — from another node. -/
def copyToSelf (base : NodeInfo) (src : SExpr) : SExpr :=
  .mk { size := base.size, ty := base.ty,
        cleanval := src.info.cleanval, pointer := src.info.pointer,
        concrete := src.info.concrete, it := src.info.it,
        rootval := src.info.rootval, addr := src.info.addr,
        path := src.info.path, isConstE := base.isConstE } src.deps

/-- The `Iex_ITE` node construction (sym_tracking.py:490-500): copy the
true arm when it carries pointer taint, the false arm otherwise; unless the
condition carries `it` (predication-state) taint, override concreteness
with the conjunction of both arms; the `it` taint is the disjunction of the
arms'. -/
def iteNode (base : NodeInfo) (falseExpr truthExpr condExpr : SExpr) : SExpr :=
  let chosen := if truthExpr.info.pointer.isSome then truthExpr else falseExpr
  let n := copyToSelf base chosen
  let conc := if condExpr.info.it then n.info.concrete
              else falseExpr.info.concrete && truthExpr.info.concrete
  .mk { n.info with
        concrete := conc
        it := falseExpr.info.it || truthExpr.info.it } n.deps

/-- `shield_constants` replacement of one literal-rooted argument with a
plain constant copy (sym_tracking.py:557-562). -/
def shieldConstExpr (e : SExpr) : SExpr :=
  if e.info.rootval then
    constExpr e.info.cleanval e.info.size e.info.ty e.info.concrete
  else e

/-- `SmartExpression.shield_constants` (sym_tracking.py:557-562). -/
def shieldConstants (exprList : List SExpr) (whitelist : Option (List Nat)) :
    List SExpr :=
  exprList.mapIdx (fun i e =>
    match whitelist with
    | some wl => if i ∈ wl then shieldConstExpr e else e
    | none => shieldConstExpr e)

/-- The VEX IR expression forms handled by `SmartExpression.__init__`
(sym_tracking.py:450-537): `Iex_Get`, `Iex_RdTmp`, `Iex_Load`,
`Iex_Const`/`Ico_*`, `Iex_ITE`, `Iex_Unop`/`Binop`/`Triop`/`Qop` (as one
n-ary form carrying the opcode string), `Iex_CCall`, `Iex_GetI`, and a
catch-all for any tag with no handler. -/
inductive IRExpr where
  | get (offset : Nat) (ty : VexTy)
  | rdTmp (tmp : Nat) (ty : VexTy)
  | load (addr : IRExpr) (ty : VexTy)
  | const (value : Nat) (ty : VexTy)
  | ite (cond iftrue iffalse : IRExpr) (ty : VexTy)
  | naryop (op : String) (args : List IRExpr) (ty : VexTy)
  | ccall (args : List IRExpr) (ty : VexTy)
  | geti (ty : VexTy)
  | unknown (tag : String) (ty : VexTy)

/-- `ROUNDING_IROPS` (sym_tracking.py:18-54), transcribed in order.  The
source tuple contains three accidental adjacent-string concatenations
(missing commas after `'Iop_F64toF32'`, `'Iop_F128toF32'` and
`'Iop_QuantizeD64'`) and a duplicated `'Iop_RecpExpF64'`; they are kept
as-is. -/
def roundingIrops : List String :=
  ["Iop_AddF64", "Iop_SubF64", "Iop_MulF64", "Iop_DivF64",
   "Iop_AddF32", "Iop_SubF32", "Iop_MulF32", "Iop_DivF32",
   "Iop_AddF128", "Iop_SubF128", "Iop_MulF128", "Iop_DivF128",
   "Iop_AddF64r32", "Iop_SubF64r32", "Iop_MulF64r32", "Iop_DivF64r32",
   "Iop_F64toI32S", "Iop_SqrtF64", "Iop_SqrtF32", "Iop_SqrtF128",
   "Iop_F64toI16S", "Iop_F64toI32S", "Iop_F64toI64S", "Iop_F64toI64U",
   "Iop_F64toI32U", "Iop_I32StoF64", "Iop_I64StoF64", "Iop_I64UtoF64",
   "Iop_I64UtoF32", "Iop_I32UtoF32", "Iop_I32UtoF64", "Iop_F32toI32S",
   "Iop_F32toI64S", "Iop_F32toI32U", "Iop_F32toI64U", "Iop_I32StoF32",
   "Iop_I64StoF32", "Iop_F64toF32Iop_F128toI32S", "Iop_F128toI64S",
   "Iop_F128toI32U", "Iop_F128toI64U",
   "Iop_F128toF64", "Iop_F128toF32Iop_AtanF64", "Iop_Yl2xF64", "Iop_Yl2xp1F64",
   "Iop_PRemF64", "Iop_PRemC3210F64", "Iop_PRem1F64", "Iop_PRem1C3210F64",
   "Iop_ScaleF64", "Iop_SinF64", "Iop_CosF64", "Iop_TanF64",
   "Iop_2xm1F64", "Iop_RoundF64toInt", "Iop_RoundF32toInt",
   "Iop_MAddF32", "Iop_MSubF32", "Iop_MAddF64", "Iop_MSubF64",
   "Iop_MAddF64r32", "Iop_MSubF64r32",
   "Iop_RoundF64toF32", "Iop_RecpExpF64", "Iop_RecpExpF64", "Iop_RecpExpF32",
   "Iop_F64toF16", "Iop_F32toF16",
   "Iop_AddD64", "Iop_SubD64", "Iop_MulD64", "Iop_DivD64",
   "Iop_AddD128", "Iop_SubD128", "Iop_MulD128", "Iop_DivD128",
   "Iop_D64toD32", "Iop_D128toD64", "Iop_I64StoD64", "Iop_I64UtoD64",
   "Iop_D64toI32S", "Iop_D64toI32U", "Iop_D64toI64S", "Iop_D64toI64U",
   "Iop_D128toI32S", "Iop_D128toI32U", "Iop_D128toI64S", "Iop_D128toI64U",
   "Iop_F32toD32", "Iop_F32toD64", "Iop_F32toD128", "Iop_F64toD32",
   "Iop_F64toD64", "Iop_F64toD128", "Iop_F128toD32", "Iop_F128toD64",
   "Iop_F128toD128", "Iop_D32toF32", "Iop_D32toF64", "Iop_D32toF128",
   "Iop_D64toF32", "Iop_D64toF64", "Iop_D64toF128", "Iop_D128toF32",
   "Iop_D128toF64", "Iop_D128toF128", "Iop_RoundD64toInt",
   "Iop_RoundD128toInt", "Iop_QuantizeD64Iop_QuantizeD128",
   "Iop_SignificanceRoundD64", "Iop_SignificanceRoundD128",
   "Iop_Add32Fx4", "Iop_Sub32Fx4", "Iop_Mul32Fx4", "Iop_Div32Fx4",
   "Iop_Add64Fx2", "Iop_Sub64Fx2", "Iop_Mul64Fx2", "Iop_Div64Fx2",
   "Iop_Add64Fx4", "Iop_Sub64Fx4", "Iop_Mul64Fx4", "Iop_Div64Fx4",
   "Iop_Add32Fx8", "Iop_Sub32Fx8", "Iop_Mul32Fx8", "Iop_Div32Fx8"]

/-- The freshly-initialized node fields of `SmartExpression.__init__`
(sym_tracking.py:456-464): declared size/type, default values, empty taints,
the instruction address and operand path. -/
def baseInfo (vexTy : VexTy) (addr : Option Nat) (path : List PathElem) :
    NodeInfo :=
  { size := vexTy.width, ty := vexTy, cleanval := 0, pointer := none,
    concrete := false, it := false, rootval := false, addr := addr,
    path := path, isConstE := false }

/-- Pointer taint of the i-th dependency (`self.deps[i].taints['pointer']`;
the opcodes that reach this are at least binary in VEX, so the index is
always in range in the source). -/
def depPointer (deps : List SExpr) (i : Nat) : Option String :=
  match deps.get? i with
  | some d => d.info.pointer
  | none => none

/-- The opcode prefixes whose nodes propagate add-class region taint
(sym_tracking.py:515-516). -/
def isAddClassOp (op : String) : Bool :=
  strStartsWith op "Iop_Add" || strStartsWith op "Iop_And" ||
  strStartsWith op "Iop_Or" || strStartsWith op "Iop_Xor"

/-- Region-taint assignment of an n-ary operator node
(sym_tracking.py:515-523); any other opcode leaves the default (untainted). -/
def naryPointerTaint (op : String) (deps : List SExpr) : Option String :=
  if isAddClassOp op then
    addClassTaint (depPointer deps 0) (depPointer deps 1)
  else if strStartsWith op "Iop_Sub" then
    subClassTaint (depPointer deps 0) (depPointer deps 1)
  else none

mutual

/-- `SmartExpression.__init__` (sym_tracking.py:450-537), as a state-passing
evaluator over the IR expression: returns the built node and the updated
block state (register defaulting, READ-access tagging).  VEX IR from the
lifter is flat (operator/call arguments and guards are atoms), so the
`SimOperationError`/`KeyError` degradation of the n-ary case is modelled
around the semantics table call, the only place those can arise there. -/
def smartExpr (bs : BlockState) (vexpression : IRExpr) (addr : Option Nat)
    (path : List PathElem) : Except Err (SExpr × BlockState) :=
  match vexpression with
  | .get offset ty => do
      let (r, bs1) ← bs.getReg offset ty
      .ok (copyToSelf (baseInfo ty addr path) r, bs1)
  | .rdTmp tmp ty => do
      let r ← bs.getTmp tmp
      .ok (copyToSelf (baseInfo ty addr path) r, bs)
  | .load a ty => do
      let (addrExpression, bs1) ← smartExpr bs a addr (path ++ [.s "addr"])
      let bs2 := bs1.access addrExpression AccessType.READ
      .ok (copyToSelf (baseInfo ty addr path) (bs2.getMem addrExpression ty), bs2)
  | .const v ty =>
      if ty.isFloat && !(ty.width = 32 || ty.width = 64) then
        .error (.unsupported "Why is there a FP const of this size")
      else
        .ok (.mk { baseInfo ty addr path with
                   cleanval := v % 2 ^ ty.width
                   rootval := true
                   concrete := true } [], bs)
  | .ite c t f ty => do
      let (falseExpr, bs1) ← smartExpr bs f addr (path ++ [.s "iffalse"])
      let (truthExpr, bs2) ← smartExpr bs1 t addr (path ++ [.s "iftrue"])
      let (condExpr, bs3) ← smartExpr bs2 c addr (path ++ [.s "cond"])
      .ok (iteNode (baseInfo ty addr path) falseExpr truthExpr condExpr, bs3)
  | .naryop op args ty => do
      let (deps0, conc, itt, bs1) ← evalArgs bs args addr path 0
      let deps1 := if strStartsWith op "Iop_Mul" || strStartsWith op "Iop_And" then
                     shieldConstants deps0 none
                   else deps0
      let deps2 := if op ∈ roundingIrops then shieldConstants deps1 (some [0])
                   else deps1
      match bs1.project.opSem op (deps2.map (fun d => d.info.cleanval)) with
      | .ok cv =>
          .ok (.mk { baseInfo ty addr path with
                     cleanval := cv
                     pointer := naryPointerTaint op deps2
                     concrete := conc
                     it := itt } deps2, bs1)
      | .error .simOperationError =>
          .ok (.mk { baseInfo ty addr path with
                     concrete := false
                     it := itt } deps2, bs1)
      | .error .keyError =>
          .ok (.mk { baseInfo ty addr path with
                     concrete := false
                     it := itt } deps2, bs1)
      | .error e => .error e
  | .ccall args ty => do
      let (_, _, itt, bs1) ← evalArgs bs args addr path 0
      .ok (.mk { baseInfo ty addr path with it := itt } [], bs1)
  | .geti ty =>
      .ok (.mk (baseInfo ty addr path) [], bs)
  | .unknown tag _ =>
      .error (.unsupported ("Unknown expression tag: " ++ tag))

/-- The argument loop of the n-ary and `Iex_CCall` cases
(sym_tracking.py:502-508, 531-533): evaluate arguments left to right,
accumulating the conjunction of concreteness, the disjunction of `it`
taint, and the dependency list. -/
def evalArgs (bs : BlockState) (args : List IRExpr) (addr : Option Nat)
    (path : List PathElem) (i : Nat) :
    Except Err (List SExpr × Bool × Bool × BlockState) :=
  match args with
  | [] => .ok ([], true, false, bs)
  | a :: rest => do
      let (arg, bs1) ← smartExpr bs a addr (path ++ [.s "args", .n i])
      let (deps, conc, itt, bs2) ← evalArgs bs1 rest addr path (i + 1)
      .ok (arg :: deps, arg.info.concrete && conc, arg.info.it || itt, bs2)

end

/-- The VEX IR statement forms handled by the statement loop of
`StructureAnalysis.analyze_stack` (sym_tracking.py:197-257): inert
no-ops/hints/barriers, `Ist_Exit`, the three assigning forms
(`Ist_WrTmp`/`Ist_Store`/`Ist_Put`), conditional load/store
(`Ist_LoadG`/`Ist_StoreG`), register-array write `Ist_PutI`,
compare-and-swap `Ist_CAS`, helper-dispatch `Ist_Dirty`, and a catch-all
for any tag with no handler. -/
inductive IRStmt where
  | noOp
  | abiHint
  | mbe
  | exitStmt (dst : IRExpr)
  | wrTmp (tmp : Nat) (data : IRExpr)
  | store (addr : IRExpr) (data : IRExpr)
  | put (offset : Nat) (data : IRExpr)
  | loadG (dst : Nat) (addr : IRExpr) (cvtFrom cvtTo : VexTy)
      (cvtSigned : Bool) (guard : IRExpr) (alt : IRExpr)
  | storeG (addr : IRExpr) (data : IRExpr) (guard : IRExpr)
  | putI (data : IRExpr)
  | cas (oldLo : Nat) (oldHi : Nat)
  | dirty (tmp : Nat)
  | unknownStmt (tag : String)

/-- Nested insert into the per-region memory map
(`self.mem_regions[region][cleanval] = value`). -/
def memRegInsert (regions : List (String × List (Nat × SExpr)))
    (region : String) (key : Nat) (v : SExpr) :
    List (String × List (Nat × SExpr)) :=
  alInsert regions region (alInsert ((alLookup regions region).getD []) key v)

/-- `claripy.sign_extend` on the numeric value: extend a `fromW`-bit value
by `d` bits. -/
def signExtendVal (v : Nat) (fromW : Nat) (d : Nat) : Nat :=
  if 2 ^ (fromW - 1) ≤ v then v + (2 ^ (fromW + d) - 2 ^ fromW) else v

/-- The type conversion applied to a conditionally-loaded value
(sym_tracking.py:218-228): a `CustomExpression` copy of the loaded node with
its type replaced by the result conversion type; a nonzero width difference
sign- or zero-extends the values (zero extension leaves the numeric value
unchanged; claripy rejects a negative extension amount). -/
def convertLoaded (data : SExpr) (cvtFrom cvtTo : VexTy) (signed : Bool) :
    Except Err SExpr :=
  let base : SExpr := .mk { data.info with
                            ty := cvtTo
                            isConstE := false } data.deps
  let convDiff : Int := (cvtTo.width : Int) - (cvtFrom.width : Int)
  if convDiff = 0 then .ok base
  else if convDiff < 0 then .error (.valueError "negative extension amount")
  else if signed then
    .ok (.mk { base.info with
               cleanval := signExtendVal data.info.cleanval cvtFrom.width
                 convDiff.toNat } base.deps)
  else .ok base

/-- Write to the block's (optional) tempstore. -/
def BlockState.tempWrite (bs : BlockState) (tmp : Nat) (v : SExpr) :
    Except Err BlockState :=
  match bs.tempstore with
  | none => .error .noneError
  | some ts => do
      let ts2 ← ts.write tmp v
      .ok { bs with tempstore := some ts2 }

/-- `self.tempstore.default(tmp)` through the block state. -/
def BlockState.tempDefault (bs : BlockState) (tmp : Nat) :
    Except Err BlockState :=
  match bs.tempstore with
  | none => .error .noneError
  | some ts => do
      let ts2 ← ts.defaultTmp tmp
      .ok { bs with tempstore := some ts2 }

/-- `BlockState.assign` (sym_tracking.py:418-442).  For `Ist_Put` the
register is updated first (widening-overwrite against the old value, with a
cold-register default); then, if the target is the stack pointer and the
taint region is a stack frame (`'stack' in self.taint_region`), a
non-concrete value raises `FidgetAnalysisFailure`, and otherwise exactly one
ALLOC tag is appended — the zero-value branch and the nonzero branch of the
source are both kept and build the identical tag. -/
def BlockState.assign (bs : BlockState) (vextatement : IRStmt)
    (expression : SExpr) (stmtIdx : Nat) : Except Err BlockState :=
  match vextatement with
  | .wrTmp tmp _ => bs.tempWrite tmp expression
  | .put offset _ =>
      let bs1 :=
        if expression.info.ty.isFloat ||
           expression.info.size > bs.project.arch.bits then
          { bs with regs := alInsert bs.regs offset expression }
        else
          let old := match alLookup bs.regs offset with
                     | some v => v
                     | none => constDefault (intTy bs.project.arch.bits)
          { bs with regs := alInsert bs.regs offset (expression.overwrite old) }
      if offset = bs.project.arch.sp_offset &&
         strContainsSub bs.taint_region "stack" then
        if !expression.info.concrete then
          .error .analysisFailure
        else if expression.info.cleanval = 0 then
          .ok { bs1 with
                tags := bs1.tags ++ [(.alloc, makeBindata bs1.project expression 0)] }
        else
          .ok { bs1 with
                tags := bs1.tags ++ [(.alloc, makeBindata bs1.project expression 0)] }
      else .ok bs1
  | .store addrE _ => do
      let (addrExpr, bs1) ← smartExpr bs addrE expression.info.addr
        [.s "statements", .n stmtIdx, .s "addr"]
      let bs2 := bs1.access addrExpr AccessType.WRITE
      let bs3 := match addrExpr.info.pointer with
                 | some region =>
                     let m := memRegInsert bs2.mem_regions region
                       addrExpr.info.cleanval expression
                     { bs2 with mem_regions := m }
                 | none => bs2
      let bs4 := if expression.info.pointer.isSome then
                   bs3.access expression AccessType.POINTER
                 else bs3
      .ok bs4
  | _ => .ok bs

/-- The per-statement dispatch of `StructureAnalysis.analyze_stack`
(sym_tracking.py:197-257), for one statement at index `stmtIdx` of the
instruction at `addr`. -/
def interpStmt (bs : BlockState) (addr : Nat) (stmtIdx : Nat)
    (stmt : IRStmt) : Except Err BlockState :=
  let path : List PathElem := [.s "statements", .n stmtIdx]
  match stmt with
  | .noOp => .ok bs
  | .abiHint => .ok bs
  | .mbe => .ok bs
  | .exitStmt dst => do
      let (_, bs1) ← smartExpr bs dst (some addr) (path ++ [.s "dst"])
      .ok bs1
  | .wrTmp tmp data => do
      let (e, bs1) ← smartExpr bs data (some addr) (path ++ [.s "data"])
      bs1.assign (.wrTmp tmp data) e stmtIdx
  | .store addrE data => do
      let (e, bs1) ← smartExpr bs data (some addr) (path ++ [.s "data"])
      bs1.assign (.store addrE data) e stmtIdx
  | .put offset data => do
      let (e, bs1) ← smartExpr bs data (some addr) (path ++ [.s "data"])
      bs1.assign (.put offset data) e stmtIdx
  | .loadG dst addrE cvtFrom cvtTo sgn guard alt => do
      let (addrExpression, bs1) ← smartExpr bs addrE (some addr)
        (path ++ [.s "addr"])
      let bs2 := bs1.access addrExpression AccessType.READ
      let dataExpression := bs2.getMem addrExpression cvtFrom
      let cvtDataExpression ← convertLoaded dataExpression cvtFrom cvtTo sgn
      let bs3 ← bs2.tempWrite dst cvtDataExpression
      let (_, bs4) ← smartExpr bs3 guard (some addr) (path ++ [.s "guard"])
      let (_, bs5) ← smartExpr bs4 alt (some addr) (path ++ [.s "alt"])
      .ok bs5
  | .storeG addrE dataE guard => do
      let (addrExpr, bs1) ← smartExpr bs addrE (some addr) (path ++ [.s "addr"])
      let (valueExpr, bs2) ← smartExpr bs1 dataE (some addr)
        (path ++ [.s "data"])
      let bs3 := bs2.access addrExpr AccessType.WRITE
      let bs4 := match addrExpr.info.pointer with
                 | some region =>
                     let m := memRegInsert bs3.mem_regions region
                       addrExpr.info.cleanval valueExpr
                     { bs3 with mem_regions := m }
                 | none => bs3
      let bs5 := if valueExpr.info.pointer = some bs4.taint_region then
                   bs4.access valueExpr AccessType.POINTER
                 else bs4
      let (_, bs6) ← smartExpr bs5 guard (some addr) (path ++ [.s "guard"])
      .ok bs6
  | .putI data => do
      let (_, bs1) ← smartExpr bs data (some addr) (path ++ [.s "data"])
      .ok bs1
  | .cas oldLo oldHi => do
      let bs1 ← if oldLo ≠ 4294967295 then bs.tempDefault oldLo else .ok bs
      let bs2 ← if oldHi ≠ 4294967295 then bs1.tempDefault oldHi else .ok bs1
      .ok bs2
  | .dirty tmp =>
      if tmp ≠ 4294967295 then bs.tempDefault tmp else .ok bs
  | .unknownStmt _ =>
      .error (.unsupported "Unknown vex instruction???")

/-- `BlockState.end` (sym_tracking.py:444-448): at block completion every
register other than the stack/base/instruction pointer is POINTER-checked
(tagging only those whose value is tainted to the current region). -/
def BlockState.endBlock (bs : BlockState) : BlockState :=
  bs.regs.foldl
    (fun acc p =>
      if p.1 = acc.project.arch.sp_offset || p.1 = acc.project.arch.bp_offset ||
         p.1 = acc.project.arch.ip_offset then acc
      else acc.access p.2 AccessType.POINTER)
    bs

/-- The `Ijk_Call` + `call_pushes_ret` fixup of `analyze_stack`
(sym_tracking.py:259-267): read the stack pointer, take its first
dependency if that carries pointer taint (the pre-push stack pointer of a
`Sub(sp, wordsize)` node) and its second otherwise, store it back as the
stack pointer, and drop the two most recent tags (the implicit push's ALLOC
and its paired ACCESS). -/
def handleCallPushesRet (bs : BlockState) : Except Err BlockState := do
  let (stack, bs1) ← bs.getReg bs.project.arch.sp_offset
    (intTy bs.project.arch.bits)
  let d0 ← match stack.deps.get? 0 with
           | some x => Except.ok x
           | none => Except.error Err.indexError
  let popped ← if d0.info.pointer.isSome then Except.ok d0
               else match stack.deps.get? 1 with
                    | some x => Except.ok x
                    | none => Except.error Err.indexError
  .ok { bs1 with
        regs := alInsert bs1.regs bs.project.arch.sp_offset popped
        tags := bs1.tags.take (bs1.tags.length - 2) }

/-- The end-of-block continuation for an `Ijk_Call` terminator
(sym_tracking.py:259-284): apply the push-convention fixup when the
architecture pushes a return address, then enqueue one state copy per
CFG-approved fallthrough successor address. -/
def blockEndCall (bs : BlockState) (succAddrs : List Nat) :
    Except Err (BlockState × List BlockState) := do
  let bs1 ← if bs.project.arch.call_pushes_ret then handleCallPushesRet bs
            else .ok bs
  .ok (bs1, succAddrs.map (fun a => bs1.copy a))

/-- Modelled from the spec: `stack_magic.Struct` is not under `src/`.  Per
spec section 3 it is the per-function frame object accumulating ALLOC and
ACCESS events in tag order, and per the `'stack' in self.taint_region` test
of `BlockState.assign` a stack frame's name contains `"stack"`; the name is
unique per function (frames are keyed by function address). -/
structure Struct where
  name : String
  allocs : List BinData
  accesses : List BinData
deriving Repr

/-- `struct.alloc(bindata)` — record an ALLOC event. -/
def Struct.alloc (s : Struct) (b : BinData) : Struct :=
  { s with allocs := s.allocs ++ [b] }

/-- `struct.access(bindata)` — record an ACCESS event. -/
def Struct.accessEvent (s : Struct) (b : BinData) : Struct :=
  { s with accesses := s.accesses ++ [b] }

/-- Modelled from the spec: the stack-frame `Struct` created at
`analyze_stack` entry (sym_tracking.py:153) for the function at
`funcaddr`. -/
def mkStackStruct (funcaddr : Nat) : Struct :=
  { name := "stack_" ++ toString funcaddr, allocs := [], accesses := [] }

/-- One function to analyze: its address and the (lifted) statement batch of
its entry instruction block, with the block's temporary type environment. -/
structure FuncJob where
  addr : Nat
  tyenv : List VexTy
  stmts : List IRStmt

/-- Interpret a statement batch in program order (statement indices continue
after the instruction's leading `IMark`, hence the caller starts at 1). -/
def interpStmts (bs : BlockState) (addr : Nat) (stmts : List IRStmt)
    (i : Nat) : Except Err BlockState :=
  match stmts with
  | [] => .ok bs
  | s :: rest => do
      let bs1 ← interpStmt bs addr i s
      interpStmts bs1 addr rest (i + 1)

/-- Drain a block's tag log into the frame in program order
(sym_tracking.py:292-298). -/
def drainTags (struct : Struct) (tags : List (TagKind × BinData)) : Struct :=
  tags.foldl
    (fun st tg =>
      match tg.1 with
      | .alloc => st.alloc tg.2
      | .access => st.accessEvent tg.2)
    struct

/-- `StructureAnalysis.analyze_stack` (sym_tracking.py:152-300) restricted
to a function whose body is a single straight-line instruction block: seed
the entry `BlockState` with a zero-valued stack pointer tainted to the
function's fresh frame region (sym_tracking.py:153-158), interpret the
statements, run the end-of-block register check, and drain the tag log into
the frame.  The worklist machinery is elided; exceptions propagate out of it
unchanged in the source (there is no handler between a statement and the
driver). -/
def analyzeStackSimple (proj : Project) (f : FuncJob) : Except Err Struct :=
  let struct := mkStackStruct f.addr
  let bs0 := BlockState.init proj f.addr struct.name
  let stackexp : SExpr :=
    .mk { (constExpr 0 proj.arch.bits (intTy proj.arch.bits) true).info with
          pointer := some struct.name
          addr := some f.addr } []
  let bs1 := { bs0 with regs := alInsert bs0.regs proj.arch.sp_offset stackexp }
  let bs2 := bs1.loadTempstore { tyenv := f.tyenv, storage := [] }
  do
    let bs3 ← interpStmts bs2 f.addr f.stmts 1
    let bs4 := bs3.endBlock
    .ok (drainTags struct bs4.tags)

/-- Which escaping errors the driver loop absorbs as a per-function
failure.  `FidgetAnalysisFailure` is caught at sym_tracking.py:78.
Modelled from the spec: the exception hierarchy (`fidget/errors.py`) is not
under `src/`; per spec section 7 the fatal unsupported-construct error
"propagates out of per-function analysis and is caught defensively by the
driver as if recoverable", so `FidgetUnsupportedError` is treated as caught
by the same handler.  Everything else (usage errors such as `ValueError`)
escapes the driver. -/
def isRecoverable : Err → Bool
  | .analysisFailure => true
  | .unsupported _ => true
  | _ => false

/-- The per-function driver loop of `StructureAnalysis.__init__`
(sym_tracking.py:75-82): analyze each function in order; a recoverable
failure omits the function and continues; on success the struct is recorded
under its name and the function address is mapped to that name. -/
def runDriverAux (proj : Project) (funcs : List FuncJob)
    (structures : List (String × Struct)) (stackFrames : List (Nat × String)) :
    Except Err (List (String × Struct) × List (Nat × String)) :=
  match funcs with
  | [] => .ok (structures, stackFrames)
  | f :: rest =>
      match analyzeStackSimple proj f with
      | .ok s => runDriverAux proj rest (alInsert structures s.name s)
          (alInsert stackFrames f.addr s.name)
      | .error e =>
          if isRecoverable e then runDriverAux proj rest structures stackFrames
          else .error e

/-- The driver over a list of eligible functions, starting from the empty
`structures` and `stack_frames` maps. -/
def runDriver (proj : Project) (funcs : List FuncJob) :
    Except Err (List (String × Struct) × List (Nat × String)) :=
  runDriverAux proj funcs [] []

/-- One CFG function entry (`cfg.function_manager.functions`). -/
structure FuncInfo where
  addr : Nat
  hasUnresolvedJumps : Bool
deriving DecidableEq, Repr

/-- The CFG/loader facts consumed by
`StructureAnalysis.get_real_functions` (sym_tracking.py:90-150):
the program entry, the architecture name, the `Ijk_Call` successors of the
entry node contexts in iteration order (for the MIPS entry-stub scan), the
hook/segment/section/PLT/unresolved-jump predicates, the entry node's
SimProcedure name per function head, and the function list in iteration
order. -/
structure CFGModel where
  projectEntry : Nat
  archName : String
  entryCallSuccs : List Nat
  isHooked : Nat → Bool
  segmentContains : Nat → Bool
  sectionsHasText : Bool
  sectionNameContaining : Nat → Option String
  pltValues : List Nat
  headSimprocedure : Nat → Option String
  functions : List FuncInfo

/-- The filter chain applied to one function by `get_real_functions`
(sym_tracking.py:104-148).  Note sym_tracking.py:143-146: the
SimProcedure-head check only emits a log line and is missing a `continue`,
so it never excludes the function — the function is appended regardless. -/
def keepFunction (cfg : CFGModel) (doNotTouch : Option Nat)
    (f : FuncInfo) : Bool :=
  if f.addr = cfg.projectEntry then false
  else if some f.addr = doNotTouch then false
  else if cfg.isHooked f.addr then false
  else if !cfg.segmentContains f.addr then false
  else if !cfg.sectionsHasText &&
          !(match cfg.sectionNameContaining f.addr with
            | some s => decide (s = ".text")
            | none => false) then false
  else if f.addr ∈ cfg.pltValues then false
  else if f.hasUnresolvedJumps then false
  else true

/-- `StructureAnalysis.get_real_functions` (sym_tracking.py:90-150): the
MIPS32 entry-stub target is the last `Ijk_Call` successor seen from the
entry contexts; then each function runs through the filter chain. -/
def getRealFunctions (cfg : CFGModel) : List FuncInfo :=
  let doNotTouch : Option Nat :=
    if cfg.archName = "MIPS32" then cfg.entryCallSuccs.getLast? else none
  cfg.functions.filter (keepFunction cfg doNotTouch)


/-! ## Association-list facts (Python-dict lookup/insert semantics) -/

theorem find?_map_replace_self {α β : Type} [DecidableEq α] (k : α) (v : β) :
    ∀ l : List (α × β), l.any (fun p => decide (p.1 = k)) = true →
      List.find? (fun p => decide (p.1 = k))
        (l.map (fun p => if p.1 = k then (k, v) else p)) = some (k, v)
  | [], h => by simp at h
  | p :: rest, h => by
      by_cases hp : p.1 = k
      · simp only [List.map_cons, if_pos hp]
        exact List.find?_cons_of_pos _ (by simp)
      · simp only [List.any_cons, hp, decide_False, Bool.false_or] at h
        simp only [List.map_cons, if_neg hp]
        rw [List.find?_cons_of_neg _ (by simp [hp])]
        exact find?_map_replace_self k v rest h

theorem find?_map_replace_ne {α β : Type} [DecidableEq α] (k k2 : α) (v : β)
    (hne : k2 ≠ k) :
    ∀ l : List (α × β),
      List.find? (fun p => decide (p.1 = k2))
        (l.map (fun p => if p.1 = k then (k, v) else p)) =
      List.find? (fun p => decide (p.1 = k2)) l
  | [] => rfl
  | p :: rest => by
      by_cases hp : p.1 = k
      · simp only [List.map_cons, if_pos hp]
        rw [List.find?_cons_of_neg _ (by simp; exact fun h => hne h.symm),
            List.find?_cons_of_neg _ (by simp [hp]; exact fun h => hne h.symm)]
        exact find?_map_replace_ne k k2 v hne rest
      · by_cases hp2 : p.1 = k2
        · simp only [List.map_cons, if_neg hp]
          rw [List.find?_cons_of_pos _ (by simp [hp2]),
              List.find?_cons_of_pos _ (by simp [hp2])]
        · simp only [List.map_cons, if_neg hp]
          rw [List.find?_cons_of_neg _ (by simp [hp2]),
              List.find?_cons_of_neg _ (by simp [hp2])]
          exact find?_map_replace_ne k k2 v hne rest

theorem alLookup_alInsert_self {α β : Type} [DecidableEq α]
    (l : List (α × β)) (k : α) (v : β) :
    alLookup (alInsert l k v) k = some v := by
  unfold alInsert alLookup
  split
  next h => rw [find?_map_replace_self k v l h]; rfl
  next h =>
    rw [List.find?_append]
    have hnone : List.find? (fun p => decide (p.1 = k)) l = none := by
      rw [List.find?_eq_none]
      intro x hx hpx
      exact h (List.any_eq_true.mpr ⟨x, hx, hpx⟩)
    rw [hnone]
    simp [List.find?_cons_of_pos]

theorem alLookup_alInsert_ne {α β : Type} [DecidableEq α]
    (l : List (α × β)) (k k2 : α) (v : β) (hne : k2 ≠ k) :
    alLookup (alInsert l k v) k2 = alLookup l k2 := by
  unfold alInsert alLookup
  split
  next => rw [find?_map_replace_ne k k2 v hne l]
  next =>
    rw [List.find?_append]
    cases hfind : List.find? (fun p => decide (p.1 = k2)) l with
    | some p => rfl
    | none =>
      simp only [Option.none_or]
      rw [List.find?_cons_of_neg _ (by simp; exact fun h => hne h.symm)]
      rfl

/-! ## C2: overwrite/truncate roundtrip -/

/-- C2: for every expression node `e` of width `w` (well-formed: its replay
value fits in `w` bits) and every wider node `o` (integer-typed, type width
matching its size), truncating `overwrite(e, o)` back to width `w` yields a
node whose low `w` bits are exactly `e`'s original value; and for every
node, `truncate` at its current type returns the node itself unchanged. -/
theorem c2_overwrite_truncate_roundtrip (e o : SExpr) (w : Nat)
    (hw : 0 < w)
    (hsize : e.info.size = w)
    (hval : e.info.cleanval < 2 ^ w)
    (hlt : w < o.info.size)
    (hoty : o.info.ty = intTy o.info.size) :
    (∃ t : SExpr, (e.overwrite o).truncate (intTy w) = .ok t ∧
       t.info.cleanval = e.info.cleanval ∧ t.info.size = w ∧
       t.info.ty = intTy w) ∧
    (∀ e2 : SExpr, e2.truncate e2.info.ty = .ok e2) := by
  constructor
  · have hne : e.info.size ≠ o.info.size := by omega
    have hngt : ¬ e.info.size > o.info.size := by omega
    have hov : e.overwrite o = SExpr.mk
        { size := o.info.size, ty := o.info.ty,
          cleanval := concatVals
            (extractBits o.info.cleanval (o.info.size - 1) e.info.size)
            e.info.cleanval e.info.size,
          pointer := o.info.pointer,
          concrete := o.info.concrete && e.info.concrete,
          it := false, rootval := false,
          addr := e.info.addr, path := e.info.path,
          isConstE := false } [e, o] := by
      unfold SExpr.overwrite
      rw [if_neg hngt, if_neg hne]
    rw [hov]
    have hne2 : w = o.info.size ↔ False := iff_false_intro (by omega)
    have hgt2 : o.info.size < w ↔ False := iff_false_intro (by omega)
    simp only [SExpr.truncate, SExpr.info_mk, hoty, intTy, VexTy.mk.injEq,
      hne2, hgt2, gt_iff_lt, and_false, Bool.false_eq_true, if_false]
    refine ⟨_, rfl, ?_, rfl, rfl⟩
    show extractBits
        (concatVals (extractBits o.info.cleanval (o.info.size - 1) e.info.size)
          e.info.cleanval e.info.size) (w - 1) 0 = e.info.cleanval
    unfold extractBits concatVals
    simp only [Nat.shiftRight_zero, Nat.sub_zero]
    have hww : w - 1 + 1 = w := by omega
    rw [hww, hsize, Nat.mul_comm, Nat.mul_add_mod]
    exact Nat.mod_eq_of_lt hval
  · intro e2
    unfold SExpr.truncate
    rw [if_pos rfl]

/-- Witness for C2 at `e = 0xAB` (8 bits), `o = 0x12345678` (32 bits). -/
theorem c2_overwrite_truncate_roundtrip_witness :
    ∃ t : SExpr,
      ((constExpr 171 8 (intTy 8) true).overwrite
        (constExpr 305419896 32 (intTy 32) true)).truncate (intTy 8) = .ok t ∧
      t.info.cleanval = 171 ∧ t.info.size = 8 ∧ t.info.ty = intTy 8 := by
  obtain ⟨t, h1, h2, h3, h4⟩ :=
    (c2_overwrite_truncate_roundtrip (constExpr 171 8 (intTy 8) true)
      (constExpr 305419896 32 (intTy 32) true) 8 (by decide) rfl (by decide)
      (by decide) rfl).1
  exact ⟨t, h1, h2, h3, h4⟩

/-! ## C1: n-ary operator region-taint propagation -/

/-- A concrete AMD64-shaped architecture descriptor for concrete
instantiations (VEX offsets: rsp = 48, rbp = 56, rip = 184). -/
def archAMD64 : Arch :=
  { name := "AMD64", bits := 64, sp_offset := 48, bp_offset := 56,
    ip_offset := 184, call_pushes_ret := true, memory_endness := "Iend_LE",
    itstateOffset := 0 }

/-- A concrete project: AMD64, no initialized data, an operation table that
evaluates every opcode to 0, no resolvable binary data. -/
def projAMD64 : Project :=
  { arch := archAMD64, loaderConst := fun _ _ => none,
    opSem := fun _ _ => .ok 0,
    binDataResolves := fun _ _ _ => false }

/-- A region-tainted 64-bit node (a stack-derived value). -/
def c1PtrNode : SExpr :=
  .mk { size := 64, ty := intTy 64, cleanval := 0,
        pointer := some "stack_4096", concrete := true, it := false,
        rootval := false, addr := none, path := [], isConstE := false } []

/-- An untainted concrete 64-bit node. -/
def c1ConstNode : SExpr := constExpr 7 64 (intTy 64) true

/-- A block state whose temporaries 0 and 1 hold an untainted value and a
region-tainted value respectively. -/
def c1Bs : BlockState :=
  { BlockState.init projAMD64 4096 "stack_4096" with
    tempstore := some { tyenv := [intTy 64, intTy 64],
                        storage := [(0, c1ConstNode), (1, c1PtrNode)] } }

/-- C1 counterexample: the claim says `add(const, ptr)` propagates the
pointer's region ("carries if exactly one operand tainted").  On the code
(sym_tracking.py:519, `... if t1 and t2 else t1) if t1 or t2 else False`),
when only the second operand is tainted the result is `t1`, i.e. untainted:
the Expression Engine builds `Add64(untainted, region-tainted)` with no
pointer taint. -/
theorem c1_claim_counterexample :
    ((c1Bs.getTmp 0).map (fun e => e.info.pointer) = .ok none) ∧
    ((c1Bs.getTmp 1).map (fun e => e.info.pointer) = .ok (some "stack_4096")) ∧
    ((smartExpr c1Bs
        (.naryop "Iop_Add64" [.rdTmp 0 (intTy 64), .rdTmp 1 (intTy 64)]
          (intTy 64)) (some 4096) []).map
      (fun r => r.1.info.pointer) = .ok none) ∧
    (none : Option String) ≠ some "stack_4096" := by
  refine ⟨rfl, rfl, rfl, ?_⟩
  intro hcontra
  exact Option.noConfusion hcontra

/-- C1 amended: every n-ary operator node built with a successfully
evaluated opcode carries the region taint computed by `naryPointerTaint`
over its (shielded) dependencies; and that assignment satisfies: for
add/and/or/xor the result carries region `r` iff the FIRST operand carries
`r` and the second is untainted or carries the identical region (if only
the second operand is tainted, or both carry different regions, the result
is untainted); for subtract the result carries `r` iff the minuend carries
`r` and the subtrahend is untainted. -/
theorem c1_operator_taint_amended (bs : BlockState) (op : String)
    (args : List IRExpr) (ty : VexTy) (addr : Option Nat) (p : List PathElem)
    (node : SExpr) (bs2 : BlockState)
    (h : smartExpr bs (.naryop op args ty) addr p = .ok (node, bs2))
    (hsem : bs2.project.opSem op (node.deps.map (fun d => d.info.cleanval)) =
      .ok node.info.cleanval) :
    node.info.pointer = naryPointerTaint op node.deps ∧
    (∀ (r : String) (t1 t2 : Option String),
      (addClassTaint t1 t2 = some r ↔
        t1 = some r ∧ (t2 = none ∨ t2 = some r)) ∧
      (subClassTaint t1 t2 = some r ↔ t1 = some r ∧ t2 = none)) := by
  constructor
  · rw [smartExpr] at h
    cases hE : evalArgs bs args addr p 0 with
    | error e =>
      rw [hE] at h
      simp only [bind, Except.bind] at h
      exact Except.noConfusion h
    | ok quad =>
      obtain ⟨deps0, conc, itt, bs1⟩ := quad
      rw [hE] at h
      simp only [bind, Except.bind] at h
      split at h
      next cv heq =>
        rw [Except.ok.injEq, Prod.mk.injEq] at h
        obtain ⟨hnode, hbs⟩ := h
        subst hnode
        simp only [SExpr.info_mk, SExpr.deps_mk]
      next heq =>
        rw [Except.ok.injEq, Prod.mk.injEq] at h
        obtain ⟨hnode, hbs⟩ := h
        subst hnode hbs
        simp only [SExpr.deps_mk] at hsem
        rw [hsem] at heq
        exact Except.noConfusion heq
      next heq =>
        rw [Except.ok.injEq, Prod.mk.injEq] at h
        obtain ⟨hnode, hbs⟩ := h
        subst hnode hbs
        simp only [SExpr.deps_mk] at hsem
        rw [hsem] at heq
        exact Except.noConfusion heq
      next e heq =>
        exact Except.noConfusion h
  · intro r t1 t2
    constructor
    · cases t1 with
      | none => simp [addClassTaint]
      | some a =>
        cases t2 with
        | none => simp [addClassTaint]
        | some b =>
          by_cases hab : a = b
          · subst hab
            simp [addClassTaint]
          · have hval : addClassTaint (some a) (some b) = none := by
              simp [addClassTaint, hab]
            rw [hval]
            constructor
            · intro hcontra
              exact Option.noConfusion hcontra
            · rintro ⟨ha, hb⟩
              rcases hb with hb0 | hb1
              · exact Option.noConfusion hb0
              · exact absurd
                  ((Option.some.inj ha).trans (Option.some.inj hb1).symm) hab
    · cases t1 with
      | none => simp [subClassTaint]
      | some a =>
        cases t2 with
        | none => simp [subClassTaint]
        | some b => simp [subClassTaint]

/-- The evaluated first operand of the C1 witness node. -/
def c1Dep0 : SExpr :=
  .mk { size := 64, ty := intTy 64, cleanval := 7, pointer := none,
        concrete := true, it := false, rootval := false, addr := none,
        path := [], isConstE := false } []

/-- The evaluated second operand of the C1 witness node. -/
def c1Dep1 : SExpr :=
  .mk { size := 64, ty := intTy 64, cleanval := 0,
        pointer := some "stack_4096", concrete := true, it := false,
        rootval := false, addr := none, path := [], isConstE := false } []

/-- The `Add64` node the Expression Engine builds over those operands. -/
def c1Node : SExpr :=
  .mk { size := 64, ty := intTy 64, cleanval := 0, pointer := none,
        concrete := true, it := false, rootval := false, addr := some 4096,
        path := [], isConstE := false } [c1Dep0, c1Dep1]

/-- Witness for C1 (amended) at a concrete `Add64` node. -/
theorem c1_operator_taint_amended_witness :
    c1Node.info.pointer = naryPointerTaint "Iop_Add64" c1Node.deps ∧
    (addClassTaint (some "stack_4096") none = some "stack_4096" ↔
      (some "stack_4096" : Option String) = some "stack_4096" ∧
        ((none : Option String) = none ∨
          (none : Option String) = some "stack_4096")) := by
  have H := c1_operator_taint_amended c1Bs "Iop_Add64"
    [.rdTmp 0 (intTy 64), .rdTmp 1 (intTy 64)] (intTy 64) (some 4096) []
    c1Node c1Bs rfl rfl
  exact ⟨H.1, (H.2 "stack_4096" (some "stack_4096") none).1⟩

/-! ## C6: ternary-select evaluation and taint -/

/-- A non-concrete, untainted false arm. -/
def c6FalseArm : SExpr :=
  .mk { size := 64, ty := intTy 64, cleanval := 3, pointer := none,
        concrete := false, it := false, rootval := false, addr := none,
        path := [], isConstE := false } []

/-- A region-tainted, concrete true arm. -/
def c6TrueArmA : SExpr :=
  .mk { size := 64, ty := intTy 64, cleanval := 4,
        pointer := some "stack_4096", concrete := true, it := false,
        rootval := false, addr := none, path := [], isConstE := false } []

/-- As `c6TrueArmA` but non-concrete: the only difference is the arm's
concreteness flag. -/
def c6TrueArmB : SExpr :=
  .mk { size := 64, ty := intTy 64, cleanval := 4,
        pointer := some "stack_4096", concrete := false, it := false,
        rootval := false, addr := none, path := [], isConstE := false } []

/-- A condition carrying predication-state (`it`) taint. -/
def c6CondIt : SExpr :=
  .mk { size := 1, ty := intTy 1, cleanval := 0, pointer := none,
        concrete := false, it := true, rootval := false, addr := none,
        path := [], isConstE := false } []

/-- C6 counterexample: with a predication-tainted condition the claim says
the arms do not constrain the result's concreteness; on the code the result
keeps the selected arm's concreteness (`copy_to_self` at
sym_tracking.py:493-496, and the conjunction override is skipped at 498-499).
Two selects differing only in the true arm's concreteness yield different
result concreteness. -/
theorem c6_claim_counterexample :
    c6CondIt.info.it = true ∧
    (iteNode (baseInfo (intTy 64) (some 4096) [])
      c6FalseArm c6TrueArmA c6CondIt).info.concrete = true ∧
    (iteNode (baseInfo (intTy 64) (some 4096) [])
      c6FalseArm c6TrueArmB c6CondIt).info.concrete = false :=
  ⟨rfl, rfl, rfl⟩

/-- C6 amended: a ternary select evaluates the false arm, the true arm and
then the condition (no short-circuit: the state threads through all three);
the node copies the true arm when it is region-tainted and the false arm
otherwise; concreteness is the conjunction of both arms unless the
condition carries predication-state taint, in which case the result keeps
the selected arm's concreteness; the node's `it` taint is the disjunction
of the arms'. -/
theorem c6_ite_select_amended (bs bs1 bs2 bs3 : BlockState) (c t f : IRExpr)
    (ty : VexTy) (addr : Option Nat) (p : List PathElem) (fe te ce : SExpr)
    (hf : smartExpr bs f addr (p ++ [.s "iffalse"]) = .ok (fe, bs1))
    (ht : smartExpr bs1 t addr (p ++ [.s "iftrue"]) = .ok (te, bs2))
    (hc : smartExpr bs2 c addr (p ++ [.s "cond"]) = .ok (ce, bs3)) :
    smartExpr bs (.ite c t f ty) addr p =
      .ok (iteNode (baseInfo ty addr p) fe te ce, bs3) ∧
    (te.info.pointer.isSome = true →
      (iteNode (baseInfo ty addr p) fe te ce).info.pointer = te.info.pointer) ∧
    (te.info.pointer = none →
      (iteNode (baseInfo ty addr p) fe te ce).info.pointer = fe.info.pointer) ∧
    (ce.info.it = false →
      (iteNode (baseInfo ty addr p) fe te ce).info.concrete =
        (fe.info.concrete && te.info.concrete)) ∧
    (ce.info.it = true →
      (iteNode (baseInfo ty addr p) fe te ce).info.concrete =
        (if te.info.pointer.isSome then te.info.concrete
         else fe.info.concrete)) ∧
    (iteNode (baseInfo ty addr p) fe te ce).info.it =
      (fe.info.it || te.info.it) := by
  refine ⟨?_, ?_, ?_, ?_, ?_, ?_⟩
  · rw [smartExpr, hf]
    simp only [bind, Except.bind]
    rw [ht]
    simp only [Except.bind]
    rw [hc]
  · intro hte
    simp [iteNode, copyToSelf, hte, SExpr.info_mk, SExpr.deps_mk]
  · intro hte
    simp [iteNode, copyToSelf, hte, SExpr.info_mk, SExpr.deps_mk]
  · intro hce
    simp [iteNode, copyToSelf, hce, SExpr.info_mk, SExpr.deps_mk]
  · intro hce
    cases hte : te.info.pointer.isSome <;>
      simp [iteNode, copyToSelf, hce, hte, SExpr.info_mk, SExpr.deps_mk]
  · simp [iteNode, copyToSelf, SExpr.info_mk, SExpr.deps_mk]

/-- A block state whose temporary 0 holds a predication-tainted condition. -/
def c6Bs : BlockState :=
  { BlockState.init projAMD64 4096 "stack_4096" with
    tempstore := some { tyenv := [intTy 1], storage := [(0, c6CondIt)] } }

/-- The evaluated false arm of the C6 witness select. -/
def c6Fe : SExpr :=
  .mk { size := 64, ty := intTy 64, cleanval := 2, pointer := none,
        concrete := true, it := false, rootval := true, addr := some 4096,
        path := [.s "iffalse"], isConstE := false } []

/-- The evaluated true arm of the C6 witness select. -/
def c6Te : SExpr :=
  .mk { size := 64, ty := intTy 64, cleanval := 1, pointer := none,
        concrete := true, it := false, rootval := true, addr := some 4096,
        path := [.s "iftrue"], isConstE := false } []

/-- Witness for C6 (amended) at a concrete select with a
predication-tainted condition. -/
theorem c6_ite_select_amended_witness :
    smartExpr c6Bs
      (.ite (.rdTmp 0 (intTy 1)) (.const 1 (intTy 64)) (.const 2 (intTy 64))
        (intTy 64)) (some 4096) [] =
      .ok (iteNode (baseInfo (intTy 64) (some 4096) []) c6Fe c6Te c6CondIt,
        c6Bs) ∧
    (iteNode (baseInfo (intTy 64) (some 4096) [])
        c6Fe c6Te c6CondIt).info.concrete =
      (if c6Te.info.pointer.isSome then c6Te.info.concrete
       else c6Fe.info.concrete) := by
  have H := c6_ite_select_amended c6Bs c6Bs c6Bs c6Bs
    (.rdTmp 0 (intTy 1)) (.const 1 (intTy 64)) (.const 2 (intTy 64))
    (intTy 64) (some 4096) [] c6Fe c6Te c6CondIt rfl rfl rfl
  exact ⟨H.1, H.2.2.2.2.1 rfl⟩

/-! ## C7: state copy on enqueue -/

/-- The last register entry for offset `k` that carries pointer taint
(Python-dict iteration makes the last write for a key the visible one). -/
def lastTaintedReg : List (Nat × SExpr) → Nat → Option SExpr
  | [], _ => none
  | p :: rest, k =>
      match lastTaintedReg rest k with
      | some v => some v
      | none =>
          if p.1 = k then
            (if p.2.info.pointer.isSome then some p.2 else none)
          else none

theorem copyFold_lookup (l : List (Nat × SExpr)) (acc : List (Nat × SExpr))
    (k : Nat) :
    alLookup (l.foldl (fun acc p =>
      if p.2.info.pointer.isSome then alInsert acc p.1 p.2 else acc) acc) k =
    (match lastTaintedReg l k with
     | some v => some v
     | none => alLookup acc k) := by
  induction l generalizing acc with
  | nil => rfl
  | cons p rest ih =>
    simp only [List.foldl_cons, lastTaintedReg]
    rw [ih]
    cases hrest : lastTaintedReg rest k with
    | some v => rfl
    | none =>
      by_cases hk : p.1 = k
      · by_cases hptr : p.2.info.pointer.isSome = true
        · simp only [hptr, if_pos rfl, if_pos hk]
          rw [← hk]
          exact alLookup_alInsert_self acc p.1 p.2
        · simp only [Bool.not_eq_true] at hptr
          simp [hptr, hk]
      · by_cases hptr : p.2.info.pointer.isSome = true
        · simp only [hptr, if_pos rfl, if_neg hk]
          exact alLookup_alInsert_ne acc p.1 k p.2 (fun h => hk h.symm)
        · simp only [Bool.not_eq_true] at hptr
          simp [hptr, hk]

/-- A region-tainted stack-pointer value for the C7 counterexample state. -/
def c7SpNode : SExpr :=
  .mk { size := 64, ty := intTy 64, cleanval := 0,
        pointer := some "stack_4096", concrete := true, it := false,
        rootval := false, addr := some 4096, path := [], isConstE := true } []

/-- An AMD64 state holding the seeded bookkeeping registers plus a tainted
stack pointer. -/
def c7Bs : BlockState :=
  { BlockState.init projAMD64 4096 "stack_4096" with
    regs := alInsert (seedRegs archAMD64) 48 c7SpNode }

/-- C7 counterexample: the claim says the copy's register map contains
exactly the source registers tainted to this function's region and no
others; on the code, `BlockState.copy` re-runs the seeding constructor
(sym_tracking.py:358, 347-349), so on AMD64 the copy also contains the
bookkeeping registers 144 and 156 holding fresh untainted defaults. -/
theorem c7_claim_counterexample :
    alLookup (c7Bs.copy 8192).regs 144 = some (constDefault (intTy 64)) ∧
    (constDefault (intTy 64)).info.pointer = none ∧
    alLookup (c7Bs.copy 8192).regs 48 = some c7SpNode :=
  ⟨rfl, rfl, rfl⟩

/-- C7 amended: the register map of a copy consists of the architecture's
pre-seeded bookkeeping registers overridden by exactly those source
registers whose value carries a (any) region-pointer taint; memory map,
tag log and tempstore are discarded, and the new state keeps the project
and taint region at the new address. -/
theorem c7_copy_keeps_tainted_plus_seeds (bs : BlockState)
    (newaddr k : Nat) :
    alLookup (bs.copy newaddr).regs k =
      (match lastTaintedReg bs.regs k with
       | some v => some v
       | none => alLookup (seedRegs bs.project.arch) k) ∧
    (bs.copy newaddr).tags = [] ∧
    (bs.copy newaddr).mem_regions = [] ∧
    (bs.copy newaddr).tempstore = none ∧
    (bs.copy newaddr).addr = newaddr ∧
    (bs.copy newaddr).taint_region = bs.taint_region := by
  refine ⟨?_, rfl, rfl, rfl, rfl, rfl⟩
  show alLookup (bs.regs.foldl
    (fun acc p =>
      if p.2.info.pointer.isSome then alInsert acc p.1 p.2 else acc)
    (BlockState.init bs.project newaddr bs.taint_region).regs) k = _
  exact copyFold_lookup bs.regs _ k

/-! ## C4: call on a push-return-address architecture -/

/-- C4: when the stack-pointer register holds a node whose first dependency
is the region-tainted pre-call stack pointer (the shape produced by the
implicit push) and the tag log ends with the push's two tags, the
`Ijk_Call` fixup restores the stack pointer to the pre-call value, removes
exactly the two most recent tags, and leaves all earlier tags, all other
registers, the memory map and the tempstore unchanged; the block-end
continuation then enqueues copies of exactly this restored state. -/
theorem c4_call_pushes_ret_restores (bs : BlockState) (spNode pre k : SExpr)
    (earlier : List (TagKind × BinData)) (t1 t2 : TagKind × BinData)
    (succAddrs : List Nat)
    (hsp : alLookup bs.regs bs.project.arch.sp_offset = some spNode)
    (hty : spNode.info.ty = intTy bs.project.arch.bits)
    (hdeps : spNode.deps = [pre, k])
    (hptr : pre.info.pointer.isSome = true)
    (htags : bs.tags = earlier ++ [t1, t2])
    (hpush : bs.project.arch.call_pushes_ret = true) :
    ∃ bs2 : BlockState, handleCallPushesRet bs = .ok bs2 ∧
      alLookup bs2.regs bs.project.arch.sp_offset = some pre ∧
      bs2.tags = earlier ∧
      (∀ off, off ≠ bs.project.arch.sp_offset →
        alLookup bs2.regs off = alLookup bs.regs off) ∧
      bs2.mem_regions = bs.mem_regions ∧
      bs2.tempstore = bs.tempstore ∧
      blockEndCall bs succAddrs =
        .ok (bs2, succAddrs.map (fun a => bs2.copy a)) := by
  have hreg : bs.getReg bs.project.arch.sp_offset
      (intTy bs.project.arch.bits) = .ok (spNode, bs) := by
    unfold BlockState.getReg
    rw [hsp]
    have hnf : spNode.info.ty.isFloat = false := by rw [hty]; rfl
    simp only [hnf, Bool.false_eq_true, if_false]
    have htr : spNode.truncate (intTy bs.project.arch.bits) = .ok spNode := by
      unfold SExpr.truncate
      rw [if_pos hty.symm]
    rw [htr]
    rfl
  have hcall : handleCallPushesRet bs = .ok
      { bs with
        regs := alInsert bs.regs bs.project.arch.sp_offset pre
        tags := bs.tags.take (bs.tags.length - 2) } := by
    unfold handleCallPushesRet
    rw [hreg]
    simp only [bind, Except.bind, hdeps]
    simp only [List.get?]
    rw [if_pos hptr]
  refine ⟨_, hcall, ?_, ?_, ?_, rfl, rfl, ?_⟩
  · exact alLookup_alInsert_self bs.regs bs.project.arch.sp_offset pre
  · show bs.tags.take (bs.tags.length - 2) = earlier
    rw [htags]
    simp only [List.length_append, List.length_cons, List.length_nil]
    have : earlier.length + (0 + 1 + 1) - 2 = earlier.length := by omega
    rw [this]
    exact List.take_left earlier [t1, t2]
  · intro off hoff
    exact alLookup_alInsert_ne bs.regs bs.project.arch.sp_offset off pre hoff
  · unfold blockEndCall
    rw [hpush]
    simp only [if_pos, bind, Except.bind]
    rw [hcall]

/-- The pre-call stack pointer of the C4 witness. -/
def c4Pre : SExpr :=
  .mk { size := 64, ty := intTy 64, cleanval := 0,
        pointer := some "stack_4096", concrete := true, it := false,
        rootval := false, addr := some 4096, path := [], isConstE := true } []

/-- The pushed word size of the C4 witness. -/
def c4K : SExpr := constExpr 8 64 (intTy 64) true

/-- The post-push stack pointer `Sub64(pre, 8)` of the C4 witness. -/
def c4SpNode : SExpr :=
  .mk { size := 64, ty := intTy 64, cleanval := 18446744073709551608,
        pointer := some "stack_4096", concrete := true, it := false,
        rootval := false, addr := some 4096, path := [], isConstE := false }
    [c4Pre, c4K]

/-- The push's ALLOC tag of the C4 witness. -/
def c4TagA : TagKind × BinData :=
  (TagKind.alloc,
   { insnAddr := some 4096, signedValue := -8, flags := 0, patches := [] })

/-- The push's paired ACCESS tag of the C4 witness. -/
def c4TagB : TagKind × BinData :=
  (TagKind.access,
   { insnAddr := some 4096, signedValue := -8, flags := 2, patches := [] })

/-- A post-push block state for the C4 witness. -/
def c4Bs : BlockState :=
  { BlockState.init projAMD64 4096 "stack_4096" with
    regs := alInsert (seedRegs archAMD64) 48 c4SpNode
    tags := [c4TagA, c4TagB] }

/-- Witness for C4 at a concrete post-push state. -/
theorem c4_call_pushes_ret_restores_witness :
    ∃ bs2 : BlockState, handleCallPushesRet c4Bs = .ok bs2 ∧
      alLookup bs2.regs 48 = some c4Pre ∧
      bs2.tags = [] ∧
      blockEndCall c4Bs [8192] = .ok (bs2, [bs2.copy 8192]) := by
  obtain ⟨bs2, h1, h2, h3, _, _, _, h7⟩ :=
    c4_call_pushes_ret_restores c4Bs c4SpNode c4Pre c4K [] c4TagA c4TagB
      [8192] rfl rfl rfl rfl rfl rfl
  exact ⟨bs2, h1, h2, h3, h7⟩

/-! ## C10: ALLOC tag for zero and nonzero stack adjustments -/

/-- C10: writing a concrete value to the stack pointer while the taint
region is a stack frame appends exactly one ALLOC tag built by
`make_bindata(0)` from the written expression — one uniform equation that
does not depend on whether the written value is zero (the zero branch at
sym_tracking.py:432-433 and the nonzero branch at 434-435 are identical),
so a zero-sized adjustment is not suppressed. -/
theorem c10_zero_alloc_tag_uniform (bs bs1 : BlockState)
    (addr stmtIdx off : Nat) (data : IRExpr) (e : SExpr)
    (h : smartExpr bs data (some addr)
      ([.s "statements", .n stmtIdx] ++ [.s "data"]) = .ok (e, bs1))
    (hoff : off = bs1.project.arch.sp_offset)
    (hstack : strContainsSub bs1.taint_region "stack" = true)
    (hconc : e.info.concrete = true) :
    ∃ bs2, interpStmt bs addr stmtIdx (.put off data) = .ok bs2 ∧
      bs2.tags = bs1.tags ++ [(TagKind.alloc, makeBindata bs1.project e 0)] := by
  subst hoff
  simp only [interpStmt]
  rw [h]
  simp only [bind, Except.bind]
  unfold BlockState.assign
  simp only [hstack, hconc, Bool.not_true, Bool.false_eq_true, if_false,
    decide_True, Bool.true_and, Bool.and_self, if_pos]
  cases hbr : (e.info.ty.isFloat || decide (e.info.size > bs1.project.arch.bits)) with
  | true =>
    simp only [hbr, if_pos rfl]
    by_cases hz : e.info.cleanval = 0
    · rw [if_pos hz]
      exact ⟨_, rfl, rfl⟩
    · rw [if_neg hz]
      exact ⟨_, rfl, rfl⟩
  | false =>
    simp only [hbr, Bool.false_eq_true, if_false]
    by_cases hz : e.info.cleanval = 0
    · rw [if_pos hz]
      exact ⟨_, rfl, rfl⟩
    · rw [if_neg hz]
      exact ⟨_, rfl, rfl⟩

/-- A fresh entry state for the C10 witness. -/
def c10Bs : BlockState := BlockState.init projAMD64 4096 "stack_4096"

/-- The evaluated zero constant written to the stack pointer in the C10
witness. -/
def c10E : SExpr :=
  .mk { size := 64, ty := intTy 64, cleanval := 0, pointer := none,
        concrete := true, it := false, rootval := true, addr := some 4096,
        path := [.s "statements", .n 1, .s "data"], isConstE := false } []

/-- Witness for C10 at a zero-valued stack-pointer write: exactly one ALLOC
tag, built by the same `make_bindata(0)` call as the nonzero case. -/
theorem c10_zero_alloc_tag_uniform_witness :
    ∃ bs2, interpStmt c10Bs 4096 1 (.put 48 (.const 0 (intTy 64))) = .ok bs2 ∧
      bs2.tags = c10Bs.tags ++
        [(TagKind.alloc, makeBindata c10Bs.project c10E 0)] := by
  obtain ⟨bs2, h1, h2⟩ := c10_zero_alloc_tag_uniform c10Bs c10Bs 4096 1 48
    (.const 0 (intTy 64)) c10E rfl rfl rfl rfl
  exact ⟨bs2, h1, h2⟩

/-! ## C5: conditional load -/

/-- C5: a conditional-load statement with an in-scope address appends
exactly one READ-access tag and performs exactly one write of the converted
loaded value to the destination temporary, for EVERY guard constant `g`
(including a statically-false guard, `g = 0`): the resulting state does not
depend on `g` or on the alternative value, which are visited only for
taint.  `addrE` is the (atomic, per flat VEX) address expression and `bs1`
the state after evaluating it. -/
theorem c5_conditional_load_tags_and_write (bs bs1 : BlockState)
    (addrE : IRExpr) (addr stmtIdx dst : Nat) (cvtFrom cvtTo : VexTy)
    (sgn : Bool) (g a2 : Nat) (gty aty : VexTy) (ae : SExpr) (ts : TempStore)
    (haddr : smartExpr bs addrE (some addr)
      ([.s "statements", .n stmtIdx] ++ [.s "addr"]) = .ok (ae, bs1))
    (htags : bs1.tags = bs.tags)
    (hscope : ae.info.pointer = some bs1.taint_region)
    (hts : bs1.tempstore = some ts)
    (htyenv : ts.tyenv.get? dst = some cvtTo)
    (hg : gty.isFloat = false)
    (ha : aty.isFloat = false)
    (hw : cvtFrom.width ≤ cvtTo.width) :
    ∃ (bs5 : BlockState) (cvt : SExpr),
      interpStmt bs addr stmtIdx
        (.loadG dst addrE cvtFrom cvtTo sgn (.const g gty) (.const a2 aty)) =
        .ok bs5 ∧
      convertLoaded ((bs1.access ae AccessType.READ).getMem ae cvtFrom)
        cvtFrom cvtTo sgn = .ok cvt ∧
      bs5.tags = bs.tags ++
        [(TagKind.access, makeBindata bs1.project ae AccessType.READ)] ∧
      bs5.tempstore = some { ts with storage := alInsert ts.storage dst cvt } ∧
      bs5.regs = bs1.regs ∧ bs5.mem_regions = bs1.mem_regions := by
  have hacc : bs1.access ae AccessType.READ =
      { bs1 with tags := bs1.tags ++
        [(TagKind.access, makeBindata bs1.project ae AccessType.READ)] } := by
    unfold BlockState.access
    rw [if_neg (fun hne => hne hscope)]
  obtain ⟨cvt, hcvteq, hcvtty⟩ : ∃ cvt : SExpr,
      convertLoaded ((bs1.access ae AccessType.READ).getMem ae cvtFrom)
        cvtFrom cvtTo sgn = .ok cvt ∧
      cvt.info.ty = cvtTo := by
    unfold convertLoaded
    by_cases hd : ((cvtTo.width : Int) - (cvtFrom.width : Int)) = 0
    · rw [if_pos hd]
      exact ⟨_, rfl, rfl⟩
    · rw [if_neg hd]
      have hnn : ¬ ((cvtTo.width : Int) - (cvtFrom.width : Int) < 0) := by
        omega
      rw [if_neg hnn]
      cases sgn with
      | true => rw [if_pos rfl]; exact ⟨_, rfl, rfl⟩
      | false => simp only [Bool.false_eq_true, if_false]; exact ⟨_, rfl, rfl⟩
  have hwrite : (bs1.access ae AccessType.READ).tempWrite dst cvt =
      .ok { (bs1.access ae AccessType.READ) with
            tempstore := some { ts with
              storage := alInsert ts.storage dst cvt } } := by
    unfold BlockState.tempWrite
    rw [hacc]
    show (match bs1.tempstore with
          | none => Except.error Err.noneError
          | some ts => do
              let ts2 ← ts.write dst cvt
              Except.ok { bs1 with
                tags := bs1.tags ++
                  [(TagKind.access, makeBindata bs1.project ae AccessType.READ)]
                tempstore := some ts2 }) = _
    rw [hts]
    have hwr : ts.write dst cvt =
        .ok { ts with storage := alInsert ts.storage dst cvt } := by
      unfold TempStore.write
      rw [htyenv]
      simp only [hcvtty, ne_eq, eq_self_iff_true, not_true, if_false,
        TempStore.sizeOfTmp, htyenv, bind, Except.bind]
    simp only [bind, Except.bind, hwr]
  refine ⟨{ (bs1.access ae AccessType.READ) with
            tempstore := some { ts with
              storage := alInsert ts.storage dst cvt } }, cvt,
    ?_, hcvteq, ?_, ?_, ?_, ?_⟩
  · simp only [interpStmt]
    rw [haddr]
    simp only [bind, Except.bind]
    rw [hcvteq]
    simp only [bind, Except.bind]
    rw [hwrite]
    simp only [bind, Except.bind]
    rw [smartExpr]
    simp only [hg, Bool.false_and, Bool.false_eq_true, if_false, bind,
      Except.bind]
    rw [smartExpr]
    simp only [ha, Bool.false_and, Bool.false_eq_true, if_false, bind,
      Except.bind]
  · rw [hacc]
    show bs1.tags ++ _ = bs.tags ++ _
    rw [htags]
  · rfl
  · rw [hacc]
  · rw [hacc]

/-- The evaluated in-scope address of the C5 witness conditional load
(also the node stored in temporary 0). -/
def c5Ae : SExpr :=
  .mk { size := 64, ty := intTy 64, cleanval := 16,
        pointer := some "stack_4096", concrete := true, it := false,
        rootval := false, addr := some 4096, path := [],
        isConstE := false } []

/-- The tempstore of the C5 witness: temporary 0 holds an in-scope
(frame-region-tainted) address, temporary 1 is the 32-bit destination. -/
def c5Ts : TempStore :=
  { tyenv := [intTy 64, intTy 32], storage := [(0, c5Ae)] }

/-- The C5 witness block state. -/
def c5Bs : BlockState :=
  { BlockState.init projAMD64 4096 "stack_4096" with tempstore := some c5Ts }

/-- Witness for C5 at a conditional load whose guard is the statically-false
constant 0. -/
theorem c5_conditional_load_tags_and_write_witness :
    ∃ (bs5 : BlockState) (cvt : SExpr),
      interpStmt c5Bs 4096 1
        (.loadG 1 (.rdTmp 0 (intTy 64)) (intTy 8) (intTy 32) false
          (.const 0 (intTy 1)) (.const 0 (intTy 8))) = .ok bs5 ∧
      bs5.tags = c5Bs.tags ++
        [(TagKind.access, makeBindata c5Bs.project c5Ae AccessType.READ)] ∧
      bs5.tempstore =
        some { c5Ts with storage := alInsert c5Ts.storage 1 cvt } := by
  obtain ⟨bs5, cvt, h1, _, h3, h4, _, _⟩ :=
    c5_conditional_load_tags_and_write c5Bs c5Bs (.rdTmp 0 (intTy 64)) 4096 1
      1 (intTy 8) (intTy 32) false 0 0 (intTy 1) (intTy 8) c5Ae c5Ts
      rfl rfl rfl rfl rfl rfl rfl (by decide)
  exact ⟨bs5, cvt, h1, h3, h4⟩

/-! ## Driver facts shared by the error-handling claims -/

theorem runDriverAux_skip (proj : Project) (pre : List FuncJob)
    (fbad : FuncJob) (post : List FuncJob) (e : Err)
    (hbad : analyzeStackSimple proj fbad = .error e)
    (hrec : isRecoverable e = true) :
    ∀ (st : List (String × Struct)) (fr : List (Nat × String)),
      runDriverAux proj (pre ++ fbad :: post) st fr =
      runDriverAux proj (pre ++ post) st fr := by
  induction pre with
  | nil =>
    intro st fr
    simp only [List.nil_append, runDriverAux, hbad, hrec, if_pos]
  | cons f rest ih =>
    intro st fr
    simp only [List.cons_append, runDriverAux]
    cases hf : analyzeStackSimple proj f with
    | ok s => exact ih _ _
    | error e2 =>
      by_cases hr : isRecoverable e2 = true
      · simp only [hr, if_pos]
        exact ih _ _
      · simp only [Bool.not_eq_true] at hr
        simp only [hr, Bool.false_eq_true, if_false]

theorem runDriverAux_frames_domain (proj : Project) (funcs : List FuncJob) :
    ∀ (st : List (String × Struct)) (fr : List (Nat × String))
      (res : List (String × Struct) × List (Nat × String)) (a : Nat),
      runDriverAux proj funcs st fr = .ok res →
      (alLookup res.2 a).isSome = true →
      (alLookup fr a).isSome = true ∨ a ∈ funcs.map (fun f => f.addr) := by
  induction funcs with
  | nil =>
    intro st fr res a h hmem
    simp only [runDriverAux, Except.ok.injEq] at h
    left
    rw [← h] at hmem
    exact hmem
  | cons f rest ih =>
    intro st fr res a h hmem
    simp only [runDriverAux] at h
    cases hf : analyzeStackSimple proj f with
    | ok s =>
      rw [hf] at h
      rcases ih _ _ res a h hmem with hin | hin
      · by_cases hak : a = f.addr
        · right
          simp [hak]
        · left
          rw [alLookup_alInsert_ne fr f.addr a s.name hak] at hin
          exact hin
      · right
        simp only [List.map_cons, List.mem_cons]
        exact Or.inr hin
    | error e2 =>
      rw [hf] at h
      have h2 : (if isRecoverable e2 = true then runDriverAux proj rest st fr
          else Except.error e2) = Except.ok res := h
      by_cases hr : isRecoverable e2 = true
      · rw [if_pos hr] at h2
        rcases ih _ _ res a h2 hmem with hin | hin
        · exact Or.inl hin
        · right
          simp only [List.map_cons, List.mem_cons]
          exact Or.inr hin
      · rw [if_neg hr] at h2
        exact Except.noConfusion h2

/-! ## C3: non-concrete stack-pointer adjustment -/

/-- C3: (1) a register write of a non-concrete value to the stack pointer
while the taint region is a stack frame makes the statement interpreter
raise `FidgetAnalysisFailure`; (2) the driver absorbs a function whose
analysis fails that way — the run over the remaining functions is exactly
the run without that function; (3) every address in the driver's
`stack_frames` result map comes from an analyzed function, so the failing
function is absent from the map. -/
theorem c3_nonconcrete_sp_write_fails :
    (∀ (bs bs1 : BlockState) (addr stmtIdx off : Nat) (data : IRExpr)
        (e : SExpr),
      smartExpr bs data (some addr)
        ([.s "statements", .n stmtIdx] ++ [.s "data"]) = .ok (e, bs1) →
      e.info.concrete = false →
      off = bs1.project.arch.sp_offset →
      strContainsSub bs1.taint_region "stack" = true →
      interpStmt bs addr stmtIdx (.put off data) =
        .error .analysisFailure) ∧
    (∀ (proj : Project) (pre post : List FuncJob) (fbad : FuncJob),
      analyzeStackSimple proj fbad = .error .analysisFailure →
      runDriver proj (pre ++ fbad :: post) = runDriver proj (pre ++ post)) ∧
    (∀ (proj : Project) (funcs : List FuncJob)
        (res : List (String × Struct) × List (Nat × String)) (a : Nat),
      runDriver proj funcs = .ok res →
      (alLookup res.2 a).isSome = true →
      a ∈ funcs.map (fun f => f.addr)) := by
  refine ⟨?_, ?_, ?_⟩
  · intro bs bs1 addr stmtIdx off data e h hconc hoff hstack
    subst hoff
    simp only [interpStmt]
    rw [h]
    simp only [bind, Except.bind]
    unfold BlockState.assign
    simp only [hstack, hconc, Bool.not_false, decide_True, Bool.true_and,
      Bool.and_self, if_pos]
  · intro proj pre post fbad hbad
    exact runDriverAux_skip proj pre fbad post .analysisFailure hbad rfl [] []
  · intro proj funcs res a h hmem
    rcases runDriverAux_frames_domain proj funcs [] [] res a h hmem with
      hin | hin
    · exact absurd hin (by simp [alLookup])
    · exact hin

/-- The state after the cold-register read of the C3 witness. -/
def c3Bs1 : BlockState :=
  { BlockState.init projAMD64 4096 "stack_4096" with
    regs := alInsert (seedRegs archAMD64) 999 (constDefault (intTy 64)) }

/-- The non-concrete register-derived value written to the stack pointer in
the C3 witness. -/
def c3E : SExpr :=
  .mk { size := 64, ty := intTy 64, cleanval := 0, pointer := none,
        concrete := false, it := false, rootval := false, addr := none,
        path := [], isConstE := false } []

/-- The single-statement body `rsp := r999` of the failing C3 witness
function. -/
def c3BadJob : FuncJob :=
  { addr := 4096, tyenv := [], stmts := [.put 48 (.get 999 (intTy 64))] }

/-- An empty well-behaved function for the C3 witness run. -/
def c3GoodJob : FuncJob := { addr := 8192, tyenv := [], stmts := [] }

/-- Witness for C3: the concrete non-constant stack-pointer write fails the
statement, and the driver run with the failing function equals the run
without it. -/
theorem c3_nonconcrete_sp_write_fails_witness :
    interpStmt (BlockState.init projAMD64 4096 "stack_4096") 4096 1
      (.put 48 (.get 999 (intTy 64))) = .error .analysisFailure ∧
    runDriver projAMD64 [c3GoodJob, c3BadJob] =
      runDriver projAMD64 [c3GoodJob] := by
  constructor
  · exact c3_nonconcrete_sp_write_fails.1
      (BlockState.init projAMD64 4096 "stack_4096") c3Bs1 4096 1 48
      (.get 999 (intTy 64)) c3E rfl rfl rfl rfl
  · exact c3_nonconcrete_sp_write_fails.2.1 projAMD64 [c3GoodJob] []
      c3BadJob rfl

/-! ## C8: fatal unsupported-construct errors -/

/-- C8: a statement or expression kind with no handler raises
`FidgetUnsupportedError`; it propagates out of the per-function analysis
(there is no intervening handler) and the driver absorbs it like a
recoverable failure: the run with such a function equals the run without
it, so the function is omitted and the remaining functions continue.
(The catch itself is `spec-modelled`: see `isRecoverable`.) -/
theorem c8_unsupported_construct_recoverable :
    (∀ (bs : BlockState) (addr stmtIdx : Nat) (tag : String),
      interpStmt bs addr stmtIdx (.unknownStmt tag) =
        .error (.unsupported "Unknown vex instruction???")) ∧
    (∀ (bs : BlockState) (addr : Option Nat) (p : List PathElem)
        (tag : String) (ty : VexTy),
      smartExpr bs (.unknown tag ty) addr p =
        .error (.unsupported ("Unknown expression tag: " ++ tag))) ∧
    (∀ (proj : Project) (pre post : List FuncJob) (fbad : FuncJob)
        (msg : String),
      analyzeStackSimple proj fbad = .error (.unsupported msg) →
      runDriver proj (pre ++ fbad :: post) = runDriver proj (pre ++ post)) := by
  refine ⟨?_, ?_, ?_⟩
  · intro bs addr stmtIdx tag
    rfl
  · intro bs addr p tag ty
    rw [smartExpr]
  · intro proj pre post fbad msg hbad
    exact runDriverAux_skip proj pre fbad post (.unsupported msg) hbad rfl [] []

/-- A function whose body contains an IR statement with no handler. -/
def c8BadJob : FuncJob :=
  { addr := 4096, tyenv := [], stmts := [.unknownStmt "Ist_LoadG128"] }

/-- Witness for C8: the unsupported statement raises, and the driver run
with the bad function equals the run without it. -/
theorem c8_unsupported_construct_recoverable_witness :
    interpStmt (BlockState.init projAMD64 4096 "stack_4096") 4096 1
      (.unknownStmt "Ist_LoadG128") =
      .error (.unsupported "Unknown vex instruction???") ∧
    runDriver projAMD64 [c3GoodJob, c8BadJob] =
      runDriver projAMD64 [c3GoodJob] := by
  constructor
  · exact c8_unsupported_construct_recoverable.1
      (BlockState.init projAMD64 4096 "stack_4096") 4096 1 "Ist_LoadG128"
  · exact c8_unsupported_construct_recoverable.2.2 projAMD64 [c3GoodJob] []
      c8BadJob "Unknown vex instruction???" rfl

/-! ## C9: simulated-head function filtering -/

/-- A CFG with one function at 0x2000 that passes every earlier filter but
whose head block is a SimProcedure. -/
def c9Cfg : CFGModel :=
  { projectEntry := 4096, archName := "AMD64", entryCallSuccs := [],
    isHooked := fun _ => false, segmentContains := fun _ => true,
    sectionsHasText := true, sectionNameContaining := fun _ => some ".text",
    pltValues := [], headSimprocedure := fun _ => some "ReturnUnconstrained",
    functions := [{ addr := 8192, hasUnresolvedJumps := false }] }

/-- C9 (code bug): the claim (and the source's own log message,
"Skipping function %s starting with a SimProcedure") says a function whose
head block is simulated is excluded, but sym_tracking.py:144-146 is missing
the `continue` present in every other filter: the function is appended to
the eligible set anyway.  Here a function whose entry node is a
SimProcedure survives `get_real_functions`. -/
theorem c9_simprocedure_head_not_skipped :
    c9Cfg.headSimprocedure 8192 = some "ReturnUnconstrained" ∧
    getRealFunctions c9Cfg = [{ addr := 8192, hasUnresolvedJumps := false }] :=
  ⟨rfl, rfl⟩
